import Mathlib

/-!
# Relay-Discord-bot — verification of the relay synchronization engine

Shallow embedding of the repository's core logic and proofs about it.

The repository contains three variants of the bot:
* `src/unnamed/part_001` — the multi-channel variant: `relay_channels` table,
  `message_map` table, `bot_meta` rotation watermark, `scheduleRotation`.
* `src/bot.js` — the allow-list variant (`ALLOWED_CHANNEL_IDS`), no message map.
* `src/unnamed/part_000` — the allow-list variant with encrypted-at-rest
  webhook tokens (`encryptWebhookToken` / `decryptWebhookToken`).

Database state is modelled as association lists keyed the way the SQLite
tables are keyed; external (Discord) calls are modelled by oracle inputs
giving each remote call's outcome; a handler run is a pure function from the
store, the in-memory rate-limit map and the oracles to the new state plus a
trace of the externally visible actions it performed, in order.
-/

/-! ## Constants (identical in all three variants) -/

def RATE_LIMIT_WINDOW : Int := 60000
def RATE_LIMIT_MAX : Nat := 3
def ROTATION_INTERVAL : Int := 86400000

/-! ## Rate limiter (`isUserRateLimited`, identical in all three variants)

```js
function isUserRateLimited(userId) {
    if (!userMessageCounts.has(userId)) { userMessageCounts.set(userId, []); }
    const timestamps = userMessageCounts.get(userId);
    const currentTime = Date.now();
    while (timestamps.length > 0 && timestamps[0] <= currentTime - RATE_LIMIT_WINDOW) {
        timestamps.shift();
    }
    timestamps.push(currentTime);
    return timestamps.length > RATE_LIMIT_MAX;
}
```
-/

/-- The in-memory `userMessageCounts` map: user id to ordered timestamps. -/
abbrev RateState := List (String × List Int)

/-- The `while`-loop: shift leading timestamps at or before `now - RATE_LIMIT_WINDOW`. -/
def trimOld : List Int → Int → List Int
  | [], _ => []
  | t :: rest, now => if t ≤ now - RATE_LIMIT_WINDOW then trimOld rest now else t :: rest

/-- Trim, append the current timestamp, then decide: `timestamps.length > RATE_LIMIT_MAX`. -/
def rateCheckCore (ts : List Int) (now : Int) : Bool × List Int :=
  let updated := trimOld ts now ++ [now]
  (decide (updated.length > RATE_LIMIT_MAX), updated)

def getUserTimestamps (rl : RateState) (userId : String) : List Int :=
  ((rl.find? (fun p => p.1 == userId)).map Prod.snd).getD []

def setUserTimestamps (rl : RateState) (userId : String) (ts : List Int) : RateState :=
  if rl.any (fun p => p.1 == userId) then
    rl.map (fun p => if p.1 == userId then (userId, ts) else p)
  else rl ++ [(userId, ts)]

/-- `isUserRateLimited`: returns the decision and the updated map (the JS
mutates the per-user array in place). -/
def isUserRateLimited (rl : RateState) (userId : String) (now : Int) : Bool × RateState :=
  let r := rateCheckCore (getUserTimestamps rl userId) now
  (r.1, setUserTimestamps rl userId r.2)

/-! ### Rate-limiter lemmas -/

theorem trimOld_keeps_fresh {x : Int} : ∀ (ts : List Int) (now : Int),
    x ∈ ts → ¬ (x ≤ now - RATE_LIMIT_WINDOW) → x ∈ trimOld ts now := by
  intro ts
  induction ts with
  | nil => intro now h _; cases h
  | cons t rest ih =>
    intro now hmem hfresh
    unfold trimOld
    by_cases hdrop : t ≤ now - RATE_LIMIT_WINDOW
    · simp only [hdrop, if_true]
      rcases List.mem_cons.mp hmem with heq | htail
      · exact absurd (heq ▸ hdrop) hfresh
      · exact ih now htail hfresh
    · simp only [hdrop, if_false]
      exact hmem

/-- **C9.** On each check the current timestamp is appended after trimming and
before the decision: the updated window is `trimOld ts now ++ [now]`, the
decision is taken on that appended list, and a recorded (possibly limiting)
event still counts toward a later check whenever it is still inside that
check's window. -/
theorem c9_current_event_recorded_before_decision (ts : List Int) (now : Int) :
    rateCheckCore ts now = (decide ((trimOld ts now).length + 1 > RATE_LIMIT_MAX),
      trimOld ts now ++ [now]) ∧
    (∀ now' : Int, ¬ (now ≤ now' - RATE_LIMIT_WINDOW) →
      now ∈ (rateCheckCore (rateCheckCore ts now).2 now').2) := by
  constructor
  · simp [rateCheckCore]
  · intro now' hfresh
    have hmem : now ∈ (rateCheckCore ts now).2 := by
      simp [rateCheckCore]
    have : now ∈ trimOld (rateCheckCore ts now).2 now' :=
      trimOld_keeps_fresh _ now' hmem hfresh
    simp [rateCheckCore]
    left
    simpa [rateCheckCore] using this

/-- Witness for C9 at a concrete input. -/
theorem c9_witness :
    rateCheckCore [1000] 2000 = (false, [1000, 2000]) ∧
    (2000 : Int) ∈ (rateCheckCore (rateCheckCore [1000] 2000).2 3000).2 := by
  refine ⟨?_, (c9_current_event_recorded_before_decision [1000] 2000).2 3000 (by decide)⟩
  have h := (c9_current_event_recorded_before_decision [1000] 2000).1
  simpa [trimOld, RATE_LIMIT_WINDOW, RATE_LIMIT_MAX] using h

/-- **C3.** With exactly three prior events recorded for a user, a fourth
event inside the rolling 60-second window is rejected, and the first event
arriving once the oldest of the three has left the trailing window (the
second-oldest still inside) is accepted. -/
theorem c3_fourth_rejected_then_accepted
    (u : String) (t1 t2 t3 now now' : Int) :
    (now - RATE_LIMIT_WINDOW < t1 → now - RATE_LIMIT_WINDOW < t2 →
      now - RATE_LIMIT_WINDOW < t3 →
      (isUserRateLimited [(u, [t1, t2, t3])] u now).1 = true) ∧
    (t1 ≤ now' - RATE_LIMIT_WINDOW → now' - RATE_LIMIT_WINDOW < t2 →
      (isUserRateLimited [(u, [t1, t2, t3])] u now').1 = false) := by
  constructor
  · intro h1 h2 h3
    simp [isUserRateLimited, rateCheckCore, getUserTimestamps, trimOld,
      RATE_LIMIT_MAX, not_le.mpr h1, not_le.mpr h2, not_le.mpr h3]
  · intro h1 h2
    simp [isUserRateLimited, rateCheckCore, getUserTimestamps, trimOld,
      RATE_LIMIT_MAX, h1, not_le.mpr h2]

/-- Witness for C3 at concrete timestamps. -/
theorem c3_witness :
    (isUserRateLimited [("u", [100000, 100002, 100003])] "u" 100010).1 = true ∧
    (isUserRateLimited [("u", [100000, 100002, 100003])] "u" 160001).1 = false :=
  ⟨(c3_fourth_rejected_then_accepted "u" 100000 100002 100003 100010 160001).1
      (by decide) (by decide) (by decide),
   (c3_fourth_rejected_then_accepted "u" 100000 100002 100003 100010 160001).2
      (by decide) (by decide)⟩

/-! ## Data model (the four SQLite tables of `src/unnamed/part_001`)

`webhooks(channelId PRIMARY KEY, webhookId, webhookToken)`,
`relay_channels(channelId PRIMARY KEY, guildId)`,
`message_map(originalMessageId PRIMARY KEY, webhookMessageId, channelId,
webhookId, webhookToken)`, `bot_meta('lastRotationTimestamp' -> value)`.
Tables are modelled as lists of rows, unique in their primary key in every
state the code produces. -/

structure WebhookRow where
  channelId : String
  webhookId : String
  webhookToken : String
deriving DecidableEq, Repr

structure MapRow where
  originalMessageId : String
  webhookMessageId : String
  channelId : String
  webhookId : String
  webhookToken : String
deriving DecidableEq, Repr

structure Store where
  webhooks : List WebhookRow
  relayChannels : List (String × String)   -- (channelId, guildId)
  messageMap : List MapRow
  lastRotationTimestamp : Option Int       -- bot_meta['lastRotationTimestamp']
deriving DecidableEq, Repr

def emptyStore : Store := ⟨[], [], [], none⟩

/-- `SELECT 1 FROM relay_channels WHERE channelId = ?` (`isRelayChannel`). -/
def isRelayChannel (s : Store) (channelId : String) : Bool :=
  s.relayChannels.any (fun p => p.1 == channelId)

/-- `SELECT webhookId, webhookToken FROM webhooks WHERE channelId = ?`. -/
def findWebhook (s : Store) (channelId : String) : Option WebhookRow :=
  s.webhooks.find? (fun r => r.channelId == channelId)

/-- `SELECT * FROM message_map WHERE originalMessageId = ?`. -/
def findMapping (s : Store) (id : String) : Option MapRow :=
  s.messageMap.find? (fun r => r.originalMessageId == id)

/-- Whether a message-map row exists for an original message id. -/
def mapMember (s : Store) (id : String) : Bool :=
  (findMapping s id).isSome

/-- `INSERT INTO message_map ...` — the primary key rejects a duplicate
(the resulting exception is swallowed by the handler's catch, leaving the
table unchanged). -/
def insertMapping (s : Store) (row : MapRow) : Store :=
  if mapMember s row.originalMessageId then s
  else { s with messageMap := s.messageMap ++ [row] }

/-- `DELETE FROM message_map WHERE originalMessageId = ?`. -/
def removeMapping (s : Store) (id : String) : Store :=
  { s with messageMap := s.messageMap.filter (fun r => !(r.originalMessageId == id)) }

/-! ## Externally visible actions of a handler run, in order -/

inductive Act where
  | deleteOriginal (messageId : String) (ok : Bool)
  | rateCheck (userId : String) (limited : Bool)
  | privateNotice (userId : String)
  | webhookSend (channelId : String) (ok : Bool)
  | insertMappingRow (originalId : String)
  | removeMappingRow (originalId : String)
  | webhookEdit (originalId : String) (ok : Bool)
  | webhookDeleteMsg (originalId : String) (ok : Bool)
deriving DecidableEq, Repr

/-! ## `getOrCreateWebhook` / `sendWebhookMessage` (`src/unnamed/part_001`)

Remote call outcomes are supplied by a `SendOracle`:
`createResult` is the outcome of `channel.createWebhook` (`none` = it threw;
in this variant the `DiscordAPIError` 10015 retry branch cannot fire, since
the `try` block performs no webhook-client call — any `createWebhook` failure
lands in the generic catch and returns `null`); `sendResult` is the outcome
of `webhookClient.send` (`some sentMessageId` on success). -/

structure SendOracle where
  createResult : Option (String × String)   -- (newWebhook.id, newWebhook.token)
  sendResult : Option String                -- sentMessage.id
deriving DecidableEq, Repr

def getOrCreateWebhook (s : Store) (channelId : String)
    (createResult : Option (String × String)) : Store × Option (String × String) :=
  match findWebhook s channelId with
  | some row => (s, some (row.webhookId, row.webhookToken))
  | none =>
    match createResult with
    | some (wid, wtok) =>
      ({ s with webhooks := s.webhooks ++ [⟨channelId, wid, wtok⟩] }, some (wid, wtok))
    | none => (s, none)

structure SendSuccess where
  sentMessageId : String
  webhookId : String
  webhookToken : String
deriving DecidableEq, Repr

/-- `sendWebhookMessage` returns `{ sentMessage, webhookCredentials }` on
success and `null` when no webhook is available or the send threw. -/
def sendWebhookMessage (s : Store) (channelId : String) (o : SendOracle) :
    Store × Option SendSuccess × List Act :=
  match getOrCreateWebhook s channelId o.createResult with
  | (s', none) => (s', none, [])
  | (s', some creds) =>
    match o.sendResult with
    | some sentId => (s', some ⟨sentId, creds.1, creds.2⟩, [.webhookSend channelId true])
    | none => (s', none, [.webhookSend channelId false])

/-! ## `client.on('messageCreate')` (`src/unnamed/part_001` lines 312-361) -/

structure InboundMessage where
  messageId : String
  channelId : String
  authorId : String
  authorIsBot : Bool
  authorIsAdmin : Bool
  content : String
  hasAttachment : Bool
deriving DecidableEq, Repr

structure CreateOracle where
  now : Int                                -- Date.now() inside isUserRateLimited
  deleteOk : Bool                          -- message.delete() (un-caught await)
  createResult : Option (String × String)
  sendResult : Option String
deriving DecidableEq, Repr

structure P1Result where
  store : Store
  rate : RateState
  aTrace : List Act
deriving DecidableEq, Repr

/-- Steps 2-3 of the pipeline: dispatch the webhook message, then insert the
message-map row if and only if `result && result.sentMessage`. -/
def relayAndMap (s : Store) (rl : RateState) (m : InboundMessage) (o : CreateOracle)
    (pre : List Act) : P1Result :=
  match sendWebhookMessage s m.channelId ⟨o.createResult, o.sendResult⟩ with
  | (s', some succ, tr) =>
    ⟨insertMapping s' ⟨m.messageId, succ.sentMessageId, m.channelId,
        succ.webhookId, succ.webhookToken⟩, rl,
      pre ++ tr ++ [.insertMappingRow m.messageId]⟩
  | (s', none, tr) => ⟨s', rl, pre ++ tr⟩

/-- The `messageCreate` handler: gate on bot author / relay channel, delete
the original first (`await message.delete()` — a failure aborts via the outer
catch), then the rate-limit check for non-administrators, then send, then map. -/
def handleMessageCreateP1 (s : Store) (rl : RateState) (m : InboundMessage)
    (o : CreateOracle) : P1Result :=
  if m.authorIsBot || !(isRelayChannel s m.channelId) then ⟨s, rl, []⟩
  else if !o.deleteOk then ⟨s, rl, [.deleteOriginal m.messageId false]⟩
  else if !m.authorIsAdmin then
    match isUserRateLimited rl m.authorId o.now with
    | (true, rl') =>
      ⟨s, rl', [.deleteOriginal m.messageId true, .rateCheck m.authorId true,
        .privateNotice m.authorId]⟩
    | (false, rl') =>
      relayAndMap s rl' m o [.deleteOriginal m.messageId true, .rateCheck m.authorId false]
  else relayAndMap s rl m o [.deleteOriginal m.messageId true]

/-! ## `client.on('messageUpdate')` / `client.on('messageDelete')`
(`src/unnamed/part_001` lines 365-393) -/

structure UpdateEvent where
  messageId : String
  authorIsBot : Bool
  newContent : String
deriving DecidableEq, Repr

/-- `messageUpdate`: ignore bot authors; look up the mapping; if present, edit
the relayed copy (failure logged, mapping left intact). -/
def handleMessageUpdateP1 (s : Store) (e : UpdateEvent) (editOk : Bool) :
    Store × List Act :=
  if e.authorIsBot then (s, [])
  else
    match findMapping s e.messageId with
    | none => (s, [])
    | some _ => (s, [.webhookEdit e.messageId editOk])

/-- `messageDelete`: look up the mapping; if present, try to delete the
relayed copy (errors ignored) and in the `finally` block unconditionally
remove the mapping row. -/
def handleMessageDeleteP1 (s : Store) (messageId : String) (deleteRelayedOk : Bool) :
    Store × List Act :=
  match findMapping s messageId with
  | none => (s, [])
  | some _ =>
    (removeMapping s messageId,
     [.webhookDeleteMsg messageId deleteRelayedOk, .removeMappingRow messageId])

/-! ## `/webhook` and `/relay` interaction handlers (`src/unnamed/part_001`) -/

structure Interaction where
  channelId : String
  userId : String
  userIsAdmin : Bool
  message : Option String
  hasAttachment : Bool
deriving DecidableEq, Repr

/-- The `/webhook` command (lines 285-309): relay-channel gate, empty-input
check, then `sendWebhookMessage`. No rate-limit check is performed and no
message-map row is stored ("Da dies eine Interaktion ist, speichern wir keine
Message Map"). -/
def handleWebhookInteractionP1 (s : Store) (i : Interaction) (o : SendOracle) :
    Store × List Act :=
  if !(isRelayChannel s i.channelId) then (s, [])
  else if i.message.isNone && !i.hasAttachment then (s, [])
  else
    match sendWebhookMessage s i.channelId o with
    | (s', _, tr) => (s', tr)

/-- `/relay addchannel` (insert if not already present). -/
def relayAddChannel (s : Store) (channelId guildId : String) : Store :=
  if isRelayChannel s channelId then s
  else { s with relayChannels := s.relayChannels ++ [(channelId, guildId)] }

/-- `/relay removechannel`. -/
def relayRemoveChannel (s : Store) (channelId : String) : Store :=
  { s with relayChannels := s.relayChannels.filter (fun p => !(p.1 == channelId)) }

/-! ## `rotateWebhooks` (`src/unnamed/part_001` lines 144-180)

Per row the loop fetches the channel, best-effort-deletes the old webhook,
creates a replacement and updates the row; the catch around the body logs and
runs `DELETE FROM webhooks WHERE channelId = ?` on ANY error thrown inside it
(failed channel fetch, `null` channel, or failed `createWebhook`), then the
loop continues with the next row. After the loop — and also on the
empty-table early return — the `lastRotationTimestamp` watermark is rewritten
to `Date.now()`. Each row's remote outcomes come from a `RotOutcome`;
a missing oracle entry is read as total failure. -/

structure RotOutcome where
  fetchOk : Bool                            -- client.channels.fetch succeeded and non-null
  createResult : Option (String × String)   -- channel.createWebhook outcome
deriving DecidableEq, Repr

def rotFail : RotOutcome := ⟨false, none⟩

/-- One iteration of the rotation loop: `none` means the catch deleted the
row; `some` is the updated row (same channel id, fresh credentials). -/
def rotateRow (r : WebhookRow) (o : RotOutcome) : Option WebhookRow :=
  if !o.fetchOk then none
  else
    match o.createResult with
    | none => none
    | some (wid, wtok) => some { r with webhookId := wid, webhookToken := wtok }

/-- The whole loop over the row snapshot (rows are unique in `channelId`, so
the per-row `UPDATE`/`DELETE` statements compose to this per-row pass). -/
def rotatePass : List WebhookRow → List RotOutcome → List WebhookRow
  | [], _ => []
  | r :: rs, os =>
    match rotateRow r (os.headD rotFail) with
    | some r' => r' :: rotatePass rs os.tail
    | none => rotatePass rs os.tail

/-- `rotateWebhooks`: rotate every row, then write the watermark; on an empty
table, skip the loop but still write the watermark (line 150). -/
def rotateWebhooks (s : Store) (os : List RotOutcome) (endTime : Int) : Store :=
  if s.webhooks.isEmpty then { s with lastRotationTimestamp := some endTime }
  else { s with webhooks := rotatePass s.webhooks os,
                lastRotationTimestamp := some endTime }

/-! ## `scheduleRotation` (`src/unnamed/part_001` lines 219-249)

```js
const lastRotation = await db.get(..., 'lastRotationTimestamp');
const now = Date.now();
if (!lastRotation || !lastRotation.value) { await rotateWebhooks(); next = Date.now() + I; }
else if (now >= last + I) { await rotateWebhooks(); next = Date.now() + I; }
else { next = last + I; }
const delay = next - Date.now();
setTimeout(..., delay > 0 ? delay : 0);
```
The watermark is read once per invocation. In the not-yet-due branch no await
separates the reads of `Date.now()`, so they are modelled as the same instant
`now`; in the rotate-now branches the post-rotation clock is `tAfter`. -/

structure SchedDecision where
  rotatesNow : Bool
  nextRotationTime : Int
deriving DecidableEq, Repr

def scheduleRotation (watermark : Option Int) (now tAfter : Int) : SchedDecision :=
  match watermark with
  | none => ⟨true, tAfter + ROTATION_INTERVAL⟩
  | some w =>
    if now ≥ w + ROTATION_INTERVAL then ⟨true, tAfter + ROTATION_INTERVAL⟩
    else ⟨false, w + ROTATION_INTERVAL⟩

/-- `setTimeout(..., delay > 0 ? delay : 0)` set at time `setTime` fires at
`setTime + max(delay, 0)`. -/
def timerFireTime (setTime delay : Int) : Int :=
  setTime + max delay 0

/-! ## `src/bot.js` — the allow-list variant

`messageCreate` (lines 222-253): gate on `ALLOWED_CHANNEL_IDS`; for
non-administrators the rate-limit check runs FIRST (over-limit: DM the author,
delete the message, stop); then the empty-content check (stop, nothing
deleted); then `sendWebhookMessage` and only AFTER it resolves
`await message.delete().catch(() => {})`. No message map exists in this
variant. -/

def handleMessageCreateBot (allowed : List String) (s : Store) (rl : RateState)
    (m : InboundMessage) (o : CreateOracle) : Store × RateState × List Act :=
  if m.authorIsBot || !(allowed.contains m.channelId) then (s, rl, [])
  else if !m.authorIsAdmin then
    match isUserRateLimited rl m.authorId o.now with
    | (true, rl') =>
      (s, rl', [.rateCheck m.authorId true, .privateNotice m.authorId,
        .deleteOriginal m.messageId o.deleteOk])
    | (false, rl') =>
      if m.content == "" && !m.hasAttachment then (s, rl', [.rateCheck m.authorId false])
      else
        match sendWebhookMessage s m.channelId ⟨o.createResult, o.sendResult⟩ with
        | (s', _, tr) =>
          (s', rl', [.rateCheck m.authorId false] ++ tr
            ++ [.deleteOriginal m.messageId o.deleteOk])
  else if m.content == "" && !m.hasAttachment then (s, rl, [])
  else
    match sendWebhookMessage s m.channelId ⟨o.createResult, o.sendResult⟩ with
    | (s', _, tr) => (s', rl, tr ++ [.deleteOriginal m.messageId o.deleteOk])

/-- `interactionCreate` for `/webhook` in `src/bot.js` (lines 179-220):
allow-list gate, empty-input check, then for non-administrators the rate-limit
check (over-limit: ephemeral notice, no send), then `sendWebhookMessage`. -/
def handleInteractionBot (allowed : List String) (s : Store) (rl : RateState)
    (i : Interaction) (o : SendOracle) (now : Int) : Store × RateState × List Act :=
  if !(allowed.contains i.channelId) then (s, rl, [])
  else if i.message.isNone && !i.hasAttachment then (s, rl, [])
  else if !i.userIsAdmin then
    match isUserRateLimited rl i.userId now with
    | (true, rl') => (s, rl', [.rateCheck i.userId true, .privateNotice i.userId])
    | (false, rl') =>
      match sendWebhookMessage s i.channelId o with
      | (s', _, tr) => (s', rl', [.rateCheck i.userId false] ++ tr)
  else
    match sendWebhookMessage s i.channelId o with
    | (s', _, tr) => (s', rl, tr)

/-! ## Whole-system executions of the `part_001` variant -/

inductive Event where
  | msgCreate (m : InboundMessage) (o : CreateOracle)
  | msgUpdate (e : UpdateEvent) (editOk : Bool)
  | msgDelete (messageId : String) (deleteRelayedOk : Bool)
  | webhookCmd (i : Interaction) (o : SendOracle)
  | relayAdd (channelId guildId : String)
  | relayRemove (channelId : String)
  | rotation (os : List RotOutcome) (endTime : Int)
deriving DecidableEq, Repr

def stepEvent (st : Store × RateState) (e : Event) : (Store × RateState) × List Act :=
  match e with
  | .msgCreate m o =>
    let r := handleMessageCreateP1 st.1 st.2 m o
    ((r.store, r.rate), r.aTrace)
  | .msgUpdate e ok =>
    let r := handleMessageUpdateP1 st.1 e ok
    ((r.1, st.2), r.2)
  | .msgDelete id ok =>
    let r := handleMessageDeleteP1 st.1 id ok
    ((r.1, st.2), r.2)
  | .webhookCmd i o =>
    let r := handleWebhookInteractionP1 st.1 i o
    ((r.1, st.2), r.2)
  | .relayAdd ch g => ((relayAddChannel st.1 ch g, st.2), [])
  | .relayRemove ch => ((relayRemoveChannel st.1 ch, st.2), [])
  | .rotation os t => ((rotateWebhooks st.1 os t, st.2), [])

def runEvents (st : Store × RateState) : List Event → (Store × RateState) × List Act
  | [] => (st, [])
  | e :: es =>
    ((runEvents (stepEvent st e).1 es).1,
      (stepEvent st e).2 ++ (runEvents (stepEvent st e).1 es).2)

/-! ## Trace observers -/

/-- Did the handler run contain a webhook send that reported success? -/
def hasSendSuccess : List Act → Bool
  | [] => false
  | .webhookSend _ true :: _ => true
  | _ :: r => hasSendSuccess r

/-- Replay a trace's mapping history for one original message id: a mapping
insert makes it live, a mapping removal kills it. -/
def liveFold (b : Bool) (id : String) (tr : List Act) : Bool :=
  tr.foldl (fun acc a =>
    match a with
    | .insertMappingRow i => if i == id then true else acc
    | .removeMappingRow i => if i == id then false else acc
    | _ => acc) b

def liveMapped (id : String) (tr : List Act) : Bool := liveFold false id tr

/-- Every mapping insert in the trace is preceded by a successful send. -/
def insertAfterSendOkAux : Bool → List Act → Bool
  | _, [] => true
  | _, .webhookSend _ true :: r => insertAfterSendOkAux true r
  | seen, .insertMappingRow _ :: r => seen && insertAfterSendOkAux seen r
  | seen, _ :: r => insertAfterSendOkAux seen r

def insertAfterSendOk (tr : List Act) : Bool := insertAfterSendOkAux false tr

/-- Pipeline phase of an action under the claimed ordering
delete → rate-check → send → map. -/
def claimedPhase : Act → Nat
  | .deleteOriginal _ _ => 0
  | .rateCheck _ _ => 1
  | .privateNotice _ => 1
  | .webhookSend _ _ => 2
  | .insertMappingRow _ => 3
  | _ => 4

/-- Phase of an action in the `bot.js` pipeline:
rate-check → send → delete. -/
def botPhase : Act → Nat
  | .rateCheck _ _ => 0
  | .privateNotice _ => 0
  | .webhookSend _ _ => 1
  | .deleteOriginal _ _ => 2
  | .insertMappingRow _ => 3
  | _ => 4

def sortedNat : List Nat → Bool
  | [] => true
  | [_] => true
  | a :: b :: r => decide (a ≤ b) && sortedNat (b :: r)

def claimedOrderOK (tr : List Act) : Bool := sortedNat (tr.map claimedPhase)

def botOrderOK (tr : List Act) : Bool := sortedNat (tr.map botPhase)

/-- When the actions list is nonempty, its first action is the deletion of the
original message. -/
def startsWithDelete (tr : List Act) (id : String) : Bool :=
  match tr with
  | [] => true
  | .deleteOriginal i _ :: _ => i == id
  | _ => false

/-! ## Credential encryption (`src/unnamed/part_000` lines 23-77)

Strings are modelled as lists of characters; raw byte buffers as lists over
an abstract byte type `β`. The external `node:crypto` primitives (AES-256-GCM
with the fixed derived key, and Buffer's base64 codec) are parameters
(`CryptoPrims`); the repository's own logic — the `enc:` format tag, the
`iv ‖ authTag ‖ ciphertext` layout and the 12/28 split offsets, and the
legacy-plaintext path — is modelled concretely. -/

abbrev JStr := List Char

/-- `ENCRYPTED_TOKEN_PREFIX = 'enc:'`. -/
def ENCRYPTED_TOKEN_PREFIX : JStr := ['e', 'n', 'c', ':']

/-- `storedToken.startsWith(ENCRYPTED_TOKEN_PREFIX)`. -/
def startsWithEncTag : JStr → Bool
  | 'e' :: 'n' :: 'c' :: ':' :: _ => true
  | _ => false

/-- The external primitives: base64 over the byte buffer type `β`, UTF-8, and
AES-256-GCM under the process-wide derived key. `gcmEncrypt iv pt` returns
`(ciphertext, authTag)`; `gcmDecrypt iv authTag ciphertext` returns `none`
when authentication fails (`decipher.final()` throws). -/
structure CryptoPrims (β : Type) where
  b64encode : List β → JStr
  b64decode : JStr → List β
  strBytes : JStr → List β
  bytesStr : List β → JStr
  gcmEncrypt : List β → List β → List β × List β
  gcmDecrypt : List β → List β → List β → Option (List β)

/-- `encryptWebhookToken`: random 12-byte `iv` (passed in explicitly),
payload `iv ‖ authTag ‖ ciphertext` in base64 behind the `enc:` tag. -/
def encryptWebhookToken {β : Type} (p : CryptoPrims β) (iv : List β) (token : JStr) : JStr :=
  let ciphertext := (p.gcmEncrypt iv (p.strBytes token)).1
  let authTag := (p.gcmEncrypt iv (p.strBytes token)).2
  ENCRYPTED_TOKEN_PREFIX ++ p.b64encode (iv ++ authTag ++ ciphertext)

inductive DecryptOutcome where
  | ok (token : JStr)     -- decrypted token
  | plaintextLegacy       -- DecryptionError with isPlaintext = true
  | failed                -- DecryptionError (authentication/format failure)
deriving DecidableEq, Repr

/-- `decryptWebhookToken`: anything not bearing the tag throws the
`isPlaintext` error before any cipher work; otherwise strip the tag, base64-
decode, split `iv = data[0:12]`, `authTag = data[12:28]`,
`ciphertext = data[28:]`, and decipher. -/
def decryptWebhookToken {β : Type} (p : CryptoPrims β) (storedToken : JStr) : DecryptOutcome :=
  if startsWithEncTag storedToken then
    let data := p.b64decode (storedToken.drop ENCRYPTED_TOKEN_PREFIX.length)
    let iv := data.take 12
    let authTag := (data.drop 12).take 16
    let ciphertext := data.drop 28
    match p.gcmDecrypt iv authTag ciphertext with
    | some bs => .ok (p.bytesStr bs)
    | none => .failed
  else .plaintextLegacy

/-- The stored-token resolution inside `getOrCreateWebhook` /
`rotateWebhooks` of `src/unnamed/part_000`: a decrypted token is used, a
legacy plaintext token is used **unchanged** (and re-encrypted best-effort on
the side), and an undecryptable row is deleted (`none`: recreate). -/
def resolveStoredToken {β : Type} (p : CryptoPrims β) (storedToken : JStr) : Option JStr :=
  match decryptWebhookToken p storedToken with
  | .ok t => some t
  | .plaintextLegacy => some storedToken
  | .failed => none

/-! ## Helper lemmas -/

def mapHas (l : List MapRow) (id : String) : Bool :=
  (l.find? (fun r => r.originalMessageId == id)).isSome

theorem mapMember_eq_mapHas (s : Store) (id : String) :
    mapMember s id = mapHas s.messageMap id := rfl

theorem mapHas_nil (id : String) : mapHas [] id = false := rfl

theorem mapHas_cons (a : MapRow) (t : List MapRow) (id : String) :
    mapHas (a :: t) id = ((a.originalMessageId == id) || mapHas t id) := by
  cases h : a.originalMessageId == id <;> simp [mapHas, List.find?, h]

theorem mapHas_append_single (l : List MapRow) (row : MapRow) (id : String) :
    mapHas (l ++ [row]) id = (mapHas l id || (row.originalMessageId == id)) := by
  induction l with
  | nil => simp [mapHas_nil, mapHas_cons]
  | cons a t ih => simp [List.cons_append, mapHas_cons, ih, Bool.or_assoc]

theorem mapHas_filter_ne (l : List MapRow) (id₀ id : String) :
    mapHas (l.filter (fun r => !(r.originalMessageId == id₀))) id
      = (mapHas l id && !(id == id₀)) := by
  induction l with
  | nil => simp [mapHas_nil]
  | cons a t ih =>
    by_cases hid : a.originalMessageId = id
    · by_cases h0 : a.originalMessageId = id₀
      · have he : id = id₀ := by rw [← hid, h0]
        subst he
        have hb : (a.originalMessageId == id) = true := beq_iff_eq.mpr hid
        simp [List.filter_cons, hb, mapHas_cons, ih]
      · have hne : ¬ id = id₀ := by rw [← hid]; exact h0
        have hb : (a.originalMessageId == id) = true := beq_iff_eq.mpr hid
        have hb0 : (a.originalMessageId == id₀) = false := by
          simpa using h0
        have hbne : (id == id₀) = false := by simpa using hne
        simp [List.filter_cons, hb, hb0, hbne, mapHas_cons, ih]
    · have hb : (a.originalMessageId == id) = false := by simpa using hid
      by_cases h0 : a.originalMessageId = id₀
      · have hb0 : (a.originalMessageId == id₀) = true := beq_iff_eq.mpr h0
        simp [List.filter_cons, hb, hb0, mapHas_cons, ih]
      · have hb0 : (a.originalMessageId == id₀) = false := by simpa using h0
        simp [List.filter_cons, hb, hb0, mapHas_cons, ih]

theorem mapMember_insertMapping (s : Store) (row : MapRow) (id : String) :
    mapMember (insertMapping s row) id
      = (mapMember s id || (row.originalMessageId == id)) := by
  unfold insertMapping
  cases h : mapMember s row.originalMessageId
  · simp only [h, Bool.false_eq_true, if_false]
    rw [mapMember_eq_mapHas, mapMember_eq_mapHas]
    exact mapHas_append_single s.messageMap row id
  · simp only [h, if_true]
    cases hb : row.originalMessageId == id
    · simp
    · have : row.originalMessageId = id := by simpa using hb
      rw [← this, h]
      simp

theorem mapMember_removeMapping (s : Store) (id₀ id : String) :
    mapMember (removeMapping s id₀) id = (mapMember s id && !(id == id₀)) := by
  unfold removeMapping
  rw [mapMember_eq_mapHas, mapMember_eq_mapHas]
  exact mapHas_filter_ne s.messageMap id₀ id

theorem mapMember_of_messageMap_eq {s t : Store} (h : t.messageMap = s.messageMap)
    (id : String) : mapMember t id = mapMember s id := by
  rw [mapMember_eq_mapHas, mapMember_eq_mapHas, h]

/-- Full case analysis of `sendWebhookMessage`: the store change never touches
`message_map`, `relay_channels` or the watermark; the trace is empty (no
webhook available), a failed send, or a successful send; and the returned
result is `some` exactly when the trace reports a successful send. -/
theorem sendWebhookMessage_spec (s : Store) (ch : String) (o : SendOracle) :
    (sendWebhookMessage s ch o).1.messageMap = s.messageMap ∧
    (sendWebhookMessage s ch o).1.relayChannels = s.relayChannels ∧
    (sendWebhookMessage s ch o).1.lastRotationTimestamp = s.lastRotationTimestamp ∧
    ((sendWebhookMessage s ch o).2.2 = [] ∨
     (sendWebhookMessage s ch o).2.2 = [.webhookSend ch false] ∨
     (sendWebhookMessage s ch o).2.2 = [.webhookSend ch true]) ∧
    (sendWebhookMessage s ch o).2.1.isSome = hasSendSuccess (sendWebhookMessage s ch o).2.2 := by
  rcases hfw : findWebhook s ch with _ | row <;>
    rcases hc : o.createResult with _ | ⟨wid, wtok⟩ <;>
    rcases hs : o.sendResult with _ | sid <;>
    simp [sendWebhookMessage, getOrCreateWebhook, hfw, hc, hs, hasSendSuccess]

/-- Exhaustive enumeration of the `messageCreate` pipeline's outcomes:
gate-ignored; delete failed; rate-limited; or delete-then-(maybe rate
check)-then-send with the mapping row inserted exactly on a confirmed send. -/
theorem handleMessageCreateP1_cases (s : Store) (rl : RateState) (m : InboundMessage)
    (o : CreateOracle) :
    (handleMessageCreateP1 s rl m o = ⟨s, rl, []⟩ ∧
      (m.authorIsBot || !(isRelayChannel s m.channelId)) = true)
  ∨ handleMessageCreateP1 s rl m o = ⟨s, rl, [.deleteOriginal m.messageId false]⟩
  ∨ (∃ rl', handleMessageCreateP1 s rl m o
      = ⟨s, rl', [.deleteOriginal m.messageId true, .rateCheck m.authorId true,
          .privateNotice m.authorId]⟩)
  ∨ (∃ s' rl' pre,
      (pre = [Act.deleteOriginal m.messageId true, Act.rateCheck m.authorId false] ∨
        pre = [Act.deleteOriginal m.messageId true]) ∧
      s'.messageMap = s.messageMap ∧
      (handleMessageCreateP1 s rl m o = ⟨s', rl', pre⟩
       ∨ handleMessageCreateP1 s rl m o
          = ⟨s', rl', pre ++ [.webhookSend m.channelId false]⟩
       ∨ (∃ succ : SendSuccess, handleMessageCreateP1 s rl m o
          = ⟨insertMapping s' ⟨m.messageId, succ.sentMessageId, m.channelId,
                succ.webhookId, succ.webhookToken⟩, rl',
             pre ++ [.webhookSend m.channelId true, .insertMappingRow m.messageId]⟩))) := by
  have hrm : ∀ (rl₀ : RateState) (pre : List Act),
      (relayAndMap s rl₀ m o pre = ⟨(sendWebhookMessage s m.channelId
          ⟨o.createResult, o.sendResult⟩).1, rl₀, pre⟩ ∧
        (sendWebhookMessage s m.channelId ⟨o.createResult, o.sendResult⟩).2.2 = []) ∨
      (relayAndMap s rl₀ m o pre = ⟨(sendWebhookMessage s m.channelId
          ⟨o.createResult, o.sendResult⟩).1, rl₀,
          pre ++ [.webhookSend m.channelId false]⟩) ∨
      (∃ succ : SendSuccess, relayAndMap s rl₀ m o pre
        = ⟨insertMapping (sendWebhookMessage s m.channelId
              ⟨o.createResult, o.sendResult⟩).1
            ⟨m.messageId, succ.sentMessageId, m.channelId, succ.webhookId,
              succ.webhookToken⟩, rl₀,
           pre ++ [.webhookSend m.channelId true, .insertMappingRow m.messageId]⟩) := by
    intro rl₀ pre
    have hspec := sendWebhookMessage_spec s m.channelId ⟨o.createResult, o.sendResult⟩
    rcases hsw : sendWebhookMessage s m.channelId ⟨o.createResult, o.sendResult⟩
      with ⟨s1, res, tr⟩
    rw [hsw] at hspec
    rcases hspec with ⟨_, _, _, htr, hiff⟩
    cases res with
    | none =>
      rcases htr with h | h | h
      · left; subst h; constructor
        · unfold relayAndMap; rw [hsw]; simp
        · rfl
      · right; left; subst h; unfold relayAndMap; rw [hsw]
      · subst h; simp [hasSendSuccess] at hiff
    | some succ =>
      right; right; refine ⟨succ, ?_⟩
      rcases htr with h | h | h
      · subst h; simp [hasSendSuccess] at hiff
      · subst h; simp [hasSendSuccess] at hiff
      · subst h; unfold relayAndMap; rw [hsw]; simp
  cases hg : (m.authorIsBot || !(isRelayChannel s m.channelId)) with
  | true => exact Or.inl ⟨by simp [handleMessageCreateP1, hg], rfl⟩
  | false =>
    right
    cases hd : o.deleteOk with
    | false => left; simp [handleMessageCreateP1, hg, hd]
    | true =>
      right
      cases ha : m.authorIsAdmin with
      | false =>
        rcases hr : isUserRateLimited rl m.authorId o.now with ⟨limited, rl'⟩
        cases limited with
        | true => exact Or.inl ⟨rl', by simp [handleMessageCreateP1, hg, hd, ha, hr]⟩
        | false =>
          right
          have hmain : handleMessageCreateP1 s rl m o = relayAndMap s rl' m o
              [Act.deleteOriginal m.messageId true, Act.rateCheck m.authorId false] := by
            simp [handleMessageCreateP1, hg, hd, ha, hr]
          rcases hrm rl' [Act.deleteOriginal m.messageId true,
              Act.rateCheck m.authorId false] with ⟨h, _⟩ | h | ⟨succ, h⟩
          · exact ⟨_, rl', _, Or.inl rfl,
              (sendWebhookMessage_spec s m.channelId ⟨o.createResult, o.sendResult⟩).1,
              Or.inl (hmain.trans h)⟩
          · exact ⟨_, rl', _, Or.inl rfl,
              (sendWebhookMessage_spec s m.channelId ⟨o.createResult, o.sendResult⟩).1,
              Or.inr (Or.inl (hmain.trans h))⟩
          · exact ⟨_, rl', _, Or.inl rfl,
              (sendWebhookMessage_spec s m.channelId ⟨o.createResult, o.sendResult⟩).1,
              Or.inr (Or.inr ⟨succ, hmain.trans h⟩)⟩
      | true =>
        right
        have hmain : handleMessageCreateP1 s rl m o = relayAndMap s rl m o
            [Act.deleteOriginal m.messageId true] := by
          simp [handleMessageCreateP1, hg, hd, ha]
        rcases hrm rl [Act.deleteOriginal m.messageId true] with ⟨h, _⟩ | h | ⟨succ, h⟩
        · exact ⟨_, rl, _, Or.inr rfl,
            (sendWebhookMessage_spec s m.channelId ⟨o.createResult, o.sendResult⟩).1,
            Or.inl (hmain.trans h)⟩
        · exact ⟨_, rl, _, Or.inr rfl,
            (sendWebhookMessage_spec s m.channelId ⟨o.createResult, o.sendResult⟩).1,
            Or.inr (Or.inl (hmain.trans h))⟩
        · exact ⟨_, rl, _, Or.inr rfl,
            (sendWebhookMessage_spec s m.channelId ⟨o.createResult, o.sendResult⟩).1,
            Or.inr (Or.inr ⟨succ, hmain.trans h⟩)⟩

def isInsertMappingRow : Act → Bool
  | .insertMappingRow _ => true
  | _ => false

def isRateCheckAct : Act → Bool
  | .rateCheck _ _ => true
  | _ => false

theorem handleWebhookInteractionP1_spec (s : Store) (i : Interaction) (o : SendOracle) :
    (handleWebhookInteractionP1 s i o).1.messageMap = s.messageMap ∧
    ((handleWebhookInteractionP1 s i o).2 = [] ∨
     (handleWebhookInteractionP1 s i o).2 = [.webhookSend i.channelId false] ∨
     (handleWebhookInteractionP1 s i o).2 = [.webhookSend i.channelId true]) := by
  have hspec := sendWebhookMessage_spec s i.channelId o
  rcases hsw : sendWebhookMessage s i.channelId o with ⟨s', res, tr⟩
  rw [hsw] at hspec
  cases h1 : isRelayChannel s i.channelId
  · simp [handleWebhookInteractionP1, h1]
  · cases h2 : (i.message.isNone && !i.hasAttachment)
    · simp only [handleWebhookInteractionP1, h1, h2, hsw]
      simpa using ⟨hspec.1, hspec.2.2.2.1⟩
    · simp [handleWebhookInteractionP1, h1, h2]

theorem rotateWebhooks_messageMap (s : Store) (os : List RotOutcome) (t : Int) :
    (rotateWebhooks s os t).messageMap = s.messageMap := by
  unfold rotateWebhooks; split <;> rfl

theorem relayAddChannel_messageMap (s : Store) (ch g : String) :
    (relayAddChannel s ch g).messageMap = s.messageMap := by
  unfold relayAddChannel; split <;> rfl

theorem handleMessageDeleteP1_spec (s : Store) (id : String) (ok : Bool) :
    (findMapping s id = none ∧ handleMessageDeleteP1 s id ok = (s, [])) ∨
    ((findMapping s id).isSome = true ∧ handleMessageDeleteP1 s id ok
      = (removeMapping s id, [.webhookDeleteMsg id ok, .removeMappingRow id])) := by
  cases hm : findMapping s id <;> simp [handleMessageDeleteP1, hm]

theorem handleMessageUpdateP1_spec (s : Store) (e : UpdateEvent) (ok : Bool) :
    (handleMessageUpdateP1 s e ok).1 = s ∧
    ((handleMessageUpdateP1 s e ok).2 = [] ∨
     (handleMessageUpdateP1 s e ok).2 = [.webhookEdit e.messageId ok]) := by
  cases hb : e.authorIsBot
  · cases hm : findMapping s e.messageId <;> simp [handleMessageUpdateP1, hb, hm]
  · simp [handleMessageUpdateP1, hb]

/-- **C10.** A relay performed through the `/webhook` slash command never
creates a Message Mapping row: the `message_map` table is unchanged by the
interaction path (even on a successful send), and its trace contains no
mapping insert — so later edits/deletes of a command-relayed message are
never mirrored. -/
theorem c10_command_relay_never_creates_mapping (s : Store) (i : Interaction)
    (o : SendOracle) :
    (handleWebhookInteractionP1 s i o).1.messageMap = s.messageMap ∧
    ((handleWebhookInteractionP1 s i o).2.all (fun a => !(isInsertMappingRow a))) = true := by
  rcases handleWebhookInteractionP1_spec s i o with ⟨hm, htr⟩
  refine ⟨hm, ?_⟩
  rcases htr with h | h | h <;> simp [h, isInsertMappingRow]

/-- **C5 (amended).** Relay-channel membership gates the `messageCreate`
pipeline completely: for a channel outside the set the handler is a strict
no-op. The `messageUpdate`/`messageDelete` handlers are instead gated by
mapping existence: whenever no mapping row exists for the message they are
strict no-ops — but a surviving mapping (created while the channel was
enabled) still drives mirroring even after the channel is removed. -/
theorem c5_nonmember_channel_scoping :
    (∀ (s : Store) (rl : RateState) (m : InboundMessage) (o : CreateOracle),
      isRelayChannel s m.channelId = false →
      handleMessageCreateP1 s rl m o = ⟨s, rl, []⟩) ∧
    (∀ (s : Store) (e : UpdateEvent) (ok : Bool),
      findMapping s e.messageId = none → handleMessageUpdateP1 s e ok = (s, [])) ∧
    (∀ (s : Store) (id : String) (ok : Bool),
      findMapping s id = none → handleMessageDeleteP1 s id ok = (s, [])) := by
  refine ⟨?_, ?_, ?_⟩
  · intro s rl m o h
    simp [handleMessageCreateP1, h]
  · intro s e ok h
    cases hb : e.authorIsBot <;> simp [handleMessageUpdateP1, hb, h]
  · intro s id ok h
    simp [handleMessageDeleteP1, h]

/-- Witness for C5 (amended) at concrete inputs. -/
theorem c5_witness :
    handleMessageCreateP1 emptyStore [] ⟨"m", "c", "u", false, false, "hi", false⟩
      ⟨0, true, none, none⟩ = ⟨emptyStore, [], []⟩ ∧
    handleMessageUpdateP1 emptyStore ⟨"m", false, "new"⟩ true = (emptyStore, []) ∧
    handleMessageDeleteP1 emptyStore "m" true = (emptyStore, []) :=
  ⟨c5_nonmember_channel_scoping.1 emptyStore [] _ _ (by decide),
   c5_nonmember_channel_scoping.2.1 emptyStore _ true (by decide),
   c5_nonmember_channel_scoping.2.2 emptyStore "m" true (by decide)⟩

def c5Store : Store := ⟨[], [], [⟨"m", "wm", "c", "wid", "wtok"⟩], none⟩

/-- **C5 counterexample.** Channel `"c"` is not in the Relay-Enabled Channel
set, yet a `messageDelete` event for message `"m"` of that channel calls the
webhook to delete the relayed copy and mutates the persisted `message_map`
table — refuting "absence means the pipeline must not touch messages in that
channel at all". -/
theorem c5_counterexample :
    isRelayChannel c5Store "c" = false ∧
    (handleMessageDeleteP1 c5Store "m" false).2
      = [.webhookDeleteMsg "m" false, .removeMappingRow "m"] ∧
    (handleMessageDeleteP1 c5Store "m" false).1.messageMap = [] ∧
    c5Store.messageMap ≠ [] := by decide

/-- **C4.** The Rotation Scheduler reads the watermark once per invocation:
absent → rotate immediately; overdue (`now ≥ watermark + 24h`) → rotate
immediately; otherwise no immediate rotation and the timer fires at exactly
`watermark + 24h`. The watermark is rewritten at the end of every rotation
pass regardless of the per-channel outcomes (also on an empty table). -/
theorem c4_schedule_and_watermark :
    (∀ now tAfter : Int, (scheduleRotation none now tAfter).rotatesNow = true) ∧
    (∀ w now tAfter : Int, w + ROTATION_INTERVAL ≤ now →
      (scheduleRotation (some w) now tAfter).rotatesNow = true) ∧
    (∀ w now tAfter : Int, now < w + ROTATION_INTERVAL →
      (scheduleRotation (some w) now tAfter).rotatesNow = false ∧
      timerFireTime now ((scheduleRotation (some w) now tAfter).nextRotationTime - now)
        = w + ROTATION_INTERVAL) ∧
    (∀ (s : Store) (os : List RotOutcome) (endTime : Int),
      (rotateWebhooks s os endTime).lastRotationTimestamp = some endTime) := by
  refine ⟨fun now tAfter => rfl, ?_, ?_, ?_⟩
  · intro w now tAfter h
    simp [scheduleRotation, ge_iff_le, h]
  · intro w now tAfter h
    have hcond : ¬ (now ≥ w + ROTATION_INTERVAL) := not_le.mpr h
    refine ⟨by simp [scheduleRotation, hcond], ?_⟩
    simp only [scheduleRotation, hcond, if_false, timerFireTime]
    rw [max_eq_left (by omega)]
    omega
  · intro s os endTime
    unfold rotateWebhooks; split <;> rfl

/-- Witness for C4 at concrete inputs. -/
theorem c4_witness :
    (scheduleRotation none 5 7).rotatesNow = true ∧
    (scheduleRotation (some 0) 86400000 86400005).rotatesNow = true ∧
    ((scheduleRotation (some 10) 20 20).rotatesNow = false ∧
      timerFireTime 20 ((scheduleRotation (some 10) 20 20).nextRotationTime - 20)
        = 10 + ROTATION_INTERVAL) ∧
    (rotateWebhooks emptyStore [] 7).lastRotationTimestamp = some 7 :=
  ⟨c4_schedule_and_watermark.1 5 7,
   c4_schedule_and_watermark.2.1 0 86400000 86400005 (by decide),
   c4_schedule_and_watermark.2.2.1 10 20 20 (by decide),
   c4_schedule_and_watermark.2.2.2 emptyStore [] 7⟩

/-- **C2 (amended).** In the multi-channel variant (`src/unnamed/part_001`)
the pipeline steps run strictly in the order delete → rate-check → send →
map: every trace is phase-sorted, every mapping insert is preceded by a
confirmed send, the first action of any nonempty trace is the deletion of the
original (so deletion never waits on relay success), and every gate-passing
message produces a nonempty trace whose head is that deletion. In the
allow-list variant (`src/bot.js`) the order is instead rate-check → send →
delete, and no mapping is ever recorded. -/
theorem c2_pipeline_ordering :
    (∀ (s : Store) (rl : RateState) (m : InboundMessage) (o : CreateOracle),
      claimedOrderOK (handleMessageCreateP1 s rl m o).aTrace = true ∧
      insertAfterSendOk (handleMessageCreateP1 s rl m o).aTrace = true ∧
      startsWithDelete (handleMessageCreateP1 s rl m o).aTrace m.messageId = true ∧
      ((m.authorIsBot || !(isRelayChannel s m.channelId)) = false →
        (handleMessageCreateP1 s rl m o).aTrace ≠ [])) ∧
    (∀ (allowed : List String) (s : Store) (rl : RateState) (m : InboundMessage)
        (o : CreateOracle),
      botOrderOK (handleMessageCreateBot allowed s rl m o).2.2 = true ∧
      ((handleMessageCreateBot allowed s rl m o).2.2.all
        (fun a => !(isInsertMappingRow a))) = true) := by
  constructor
  · intro s rl m o
    rcases handleMessageCreateP1_cases s rl m o with ⟨h, hg⟩ | h | ⟨rl', h⟩ |
      ⟨s', rl', pre, hpre, _, h | h | ⟨succ, h⟩⟩
    · rw [h]
      refine ⟨rfl, rfl, rfl, ?_⟩
      intro hg0
      rw [hg] at hg0
      simp at hg0
    · rw [h]
      refine ⟨?_, ?_, ?_, ?_⟩ <;>
        simp [claimedOrderOK, claimedPhase, sortedNat, insertAfterSendOk,
          insertAfterSendOkAux, startsWithDelete]
    · rw [h]
      refine ⟨?_, ?_, ?_, ?_⟩ <;>
        simp [claimedOrderOK, claimedPhase, sortedNat, insertAfterSendOk,
          insertAfterSendOkAux, startsWithDelete]
    · rcases hpre with hpre | hpre <;> subst hpre <;> rw [h] <;>
        refine ⟨?_, ?_, ?_, ?_⟩ <;>
        simp [claimedOrderOK, claimedPhase, sortedNat, insertAfterSendOk,
          insertAfterSendOkAux, startsWithDelete]
    · rcases hpre with hpre | hpre <;> subst hpre <;> rw [h] <;>
        refine ⟨?_, ?_, ?_, ?_⟩ <;>
        simp [claimedOrderOK, claimedPhase, sortedNat, insertAfterSendOk,
          insertAfterSendOkAux, startsWithDelete]
    · rcases hpre with hpre | hpre <;> subst hpre <;> rw [h] <;>
        refine ⟨?_, ?_, ?_, ?_⟩ <;>
        simp [claimedOrderOK, claimedPhase, sortedNat, insertAfterSendOk,
          insertAfterSendOkAux, startsWithDelete]
  · intro allowed s rl m o
    have hspec := sendWebhookMessage_spec s m.channelId ⟨o.createResult, o.sendResult⟩
    rcases hsw : sendWebhookMessage s m.channelId ⟨o.createResult, o.sendResult⟩
      with ⟨s1, res, tr⟩
    rw [hsw] at hspec
    rcases hspec with ⟨_, _, _, htr, _⟩
    cases hbot : m.authorIsBot
    · cases hcont : allowed.contains m.channelId
      · have hnm : ¬ m.channelId ∈ allowed := by simpa using hcont
        simp [handleMessageCreateBot, hbot, hnm, botOrderOK, botPhase,
          sortedNat, isInsertMappingRow]
      · have hm : m.channelId ∈ allowed := by simpa using hcont
        cases ha : m.authorIsAdmin
        · rcases hr : isUserRateLimited rl m.authorId o.now with ⟨limited, rl'⟩
          cases limited
          · cases he : (m.content == "" && !m.hasAttachment)
            · rcases htr with ht | ht | ht <;> subst ht <;>
                simp [handleMessageCreateBot, hbot, hm, ha, hr, he, hsw,
                  botOrderOK, botPhase, sortedNat, isInsertMappingRow]
            · simp [handleMessageCreateBot, hbot, hm, ha, hr, he, botOrderOK,
                botPhase, sortedNat, isInsertMappingRow]
          · simp [handleMessageCreateBot, hbot, hm, ha, hr, botOrderOK,
              botPhase, sortedNat, isInsertMappingRow]
        · cases he : (m.content == "" && !m.hasAttachment)
          · rcases htr with ht | ht | ht <;> subst ht <;>
              simp [handleMessageCreateBot, hbot, hm, ha, he, hsw, botOrderOK,
                botPhase, sortedNat, isInsertMappingRow]
          · simp [handleMessageCreateBot, hbot, hm, ha, he, botOrderOK,
              botPhase, sortedNat, isInsertMappingRow]
    · simp [handleMessageCreateBot, hbot, botOrderOK, botPhase, sortedNat,
        isInsertMappingRow]

def c2Msg : InboundMessage := ⟨"m", "c", "u", false, false, "hi", false⟩

def c2Oracle : CreateOracle := ⟨0, true, some ("wid", "wtok"), some "s1"⟩

/-- **C2 counterexample.** In `src/bot.js`, a gate-accepted non-administrator
message is processed as rate-check → send → delete: the trace puts the
deletion of the original *after* the webhook send, refuting the claimed
strict delete → rate-check → send → map order for every accepted message. -/
theorem c2_counterexample :
    (c2Msg.authorIsBot || !(["c"].contains c2Msg.channelId)) = false ∧
    (handleMessageCreateBot ["c"] emptyStore [] c2Msg c2Oracle).2.2
      = [.rateCheck "u" false, .webhookSend "c" true, .deleteOriginal "m" true] ∧
    claimedOrderOK
      [.rateCheck "u" false, .webhookSend "c" true, .deleteOriginal "m" true] = false := by
  decide

def c2Store : Store := ⟨[], [("c", "g")], [], none⟩

/-- Witness for C2 (amended) at concrete inputs. -/
theorem c2_witness :
    claimedOrderOK (handleMessageCreateP1 c2Store [] c2Msg c2Oracle).aTrace = true ∧
    (handleMessageCreateP1 c2Store [] c2Msg c2Oracle).aTrace ≠ [] ∧
    botOrderOK (handleMessageCreateBot ["c"] emptyStore [] c2Msg c2Oracle).2.2 = true :=
  ⟨(c2_pipeline_ordering.1 c2Store [] c2Msg c2Oracle).1,
   (c2_pipeline_ordering.1 c2Store [] c2Msg c2Oracle).2.2.2 (by decide),
   (c2_pipeline_ordering.2 ["c"] emptyStore [] c2Msg c2Oracle).1⟩

def c6Store : Store := ⟨[⟨"c", "wid", "wtok"⟩], [("c", "g")], [], none⟩

def c6Inter : Interaction := ⟨"c", "u", false, some "hi", false⟩

def c6Rate : RateState := [("u", [100, 200, 300, 400])]

/-- **C6 counterexample.** In the multi-channel variant, a non-administrator
user who is over the rate limit still gets a relay send from the `/webhook`
command: the handler performs no rate-limit check (its trace contains no rate
check and no private rate-limit notice), refuting "the same per-user
3-per-60-seconds rate limit ... for every non-administrator user over the
limit, the command produces a private notice and no relay send". -/
theorem c6_counterexample :
    c6Inter.userIsAdmin = false ∧
    (isUserRateLimited c6Rate "u" 500).1 = true ∧
    (handleWebhookInteractionP1 c6Store c6Inter ⟨none, some "s1"⟩).2
      = [.webhookSend "c" true] := by
  decide

/-- **C6 (amended).** In the allow-list variant (`src/bot.js`), the `/webhook`
command applies the allow-list gate and the per-user rate limit with an
administrator bypass: an over-limit non-administrator gets exactly a private
(ephemeral) notice and no send, while an administrator's invocation never
touches the limiter state and performs no rate check. In the multi-channel
variant (`src/unnamed/part_001`), the command applies only the relay-channel
gate and empty-input check and performs no rate-limit check at all. -/
theorem c6_command_rate_limiting :
    (∀ (allowed : List String) (s : Store) (rl : RateState) (i : Interaction)
        (o : SendOracle) (now : Int),
      allowed.contains i.channelId = true →
      (i.message.isNone && !i.hasAttachment) = false →
      i.userIsAdmin = false →
      (isUserRateLimited rl i.userId now).1 = true →
      handleInteractionBot allowed s rl i o now
        = (s, (isUserRateLimited rl i.userId now).2,
            [.rateCheck i.userId true, .privateNotice i.userId])) ∧
    (∀ (allowed : List String) (s : Store) (rl : RateState) (i : Interaction)
        (o : SendOracle) (now : Int),
      i.userIsAdmin = true →
      (handleInteractionBot allowed s rl i o now).2.1 = rl ∧
      ((handleInteractionBot allowed s rl i o now).2.2.all
        (fun a => !(isRateCheckAct a))) = true) ∧
    (∀ (s : Store) (i : Interaction) (o : SendOracle),
      ((handleWebhookInteractionP1 s i o).2.all (fun a => !(isRateCheckAct a))) = true) := by
  refine ⟨?_, ?_, ?_⟩
  · intro allowed s rl i o now hcont hne hadmin hlim
    have hm : i.channelId ∈ allowed := by simpa using hcont
    rcases hr : isUserRateLimited rl i.userId now with ⟨limited, rl'⟩
    rw [hr] at hlim
    subst hlim
    simp [handleInteractionBot, hm, hne, hadmin, hr]
  · intro allowed s rl i o now hadmin
    have hspec := sendWebhookMessage_spec s i.channelId o
    rcases hsw : sendWebhookMessage s i.channelId o with ⟨s1, res, tr⟩
    rw [hsw] at hspec
    rcases hspec with ⟨_, _, _, htr, _⟩
    cases hcont : allowed.contains i.channelId
    · have hnm : ¬ i.channelId ∈ allowed := by simpa using hcont
      simp [handleInteractionBot, hnm, isRateCheckAct]
    · have hm : i.channelId ∈ allowed := by simpa using hcont
      cases hne : (i.message.isNone && !i.hasAttachment)
      · rcases htr with ht | ht | ht <;> subst ht <;>
          simp [handleInteractionBot, hm, hne, hadmin, hsw, isRateCheckAct]
      · simp [handleInteractionBot, hm, hne, isRateCheckAct]
  · intro s i o
    rcases handleWebhookInteractionP1_spec s i o with ⟨_, htr⟩
    rcases htr with h | h | h <;> simp [h, isRateCheckAct]

/-- Witness for C6 (amended) at concrete inputs. -/
theorem c6_witness :
    handleInteractionBot ["c"] emptyStore c6Rate c6Inter ⟨none, some "s1"⟩ 500
      = (emptyStore, [("u", [100, 200, 300, 400, 500])],
          [.rateCheck "u" true, .privateNotice "u"]) ∧
    (handleInteractionBot ["c"] emptyStore []
        ⟨"c", "u", true, some "hi", false⟩ ⟨none, some "s1"⟩ 500).2.1 = [] ∧
    ((handleWebhookInteractionP1 c6Store c6Inter ⟨none, some "s1"⟩).2.all
      (fun a => !(isRateCheckAct a))) = true :=
  ⟨(c6_command_rate_limiting.1 ["c"] emptyStore c6Rate c6Inter ⟨none, some "s1"⟩ 500
      (by decide) (by decide) (by decide) (by decide)).trans (by decide),
   (c6_command_rate_limiting.2.1 ["c"] emptyStore []
      ⟨"c", "u", true, some "hi", false⟩ ⟨none, some "s1"⟩ 500 (by decide)).1,
   c6_command_rate_limiting.2.2 c6Store c6Inter ⟨none, some "s1"⟩⟩

theorem handleMessageCreateP1_mapMember (s : Store) (rl : RateState)
    (m : InboundMessage) (o : CreateOracle) (id : String) :
    mapMember (handleMessageCreateP1 s rl m o).store id
      = (mapMember s id || ((m.messageId == id)
          && hasSendSuccess (handleMessageCreateP1 s rl m o).aTrace)) := by
  rcases handleMessageCreateP1_cases s rl m o with ⟨h, _⟩ | h | ⟨rl', h⟩ |
    ⟨s', rl', pre, hpre, hmm, h | h | ⟨succ, h⟩⟩
  · rw [h]; simp [hasSendSuccess]
  · rw [h]; simp [hasSendSuccess]
  · rw [h]; simp [hasSendSuccess]
  · rw [h]
    have hmm' : mapMember s' id = mapMember s id := mapMember_of_messageMap_eq hmm id
    rcases hpre with hp | hp <;> subst hp <;> simp [hasSendSuccess, hmm']
  · rw [h]
    have hmm' : mapMember s' id = mapMember s id := mapMember_of_messageMap_eq hmm id
    rcases hpre with hp | hp <;> subst hp <;> simp [hasSendSuccess, hmm']
  · rw [h]
    have hmm' : mapMember s' id = mapMember s id := mapMember_of_messageMap_eq hmm id
    rcases hpre with hp | hp <;> subst hp <;>
      simp [hasSendSuccess, mapMember_insertMapping, hmm']

theorem liveFold_append (b : Bool) (id : String) (l₁ l₂ : List Act) :
    liveFold b id (l₁ ++ l₂) = liveFold (liveFold b id l₁) id l₂ := by
  simp [liveFold, List.foldl_append]

theorem stepEvent_mapInv (st : Store × RateState) (e : Event) (id : String) :
    mapMember (stepEvent st e).1.1 id
      = liveFold (mapMember st.1 id) id (stepEvent st e).2 := by
  rcases st with ⟨s, rl⟩
  cases e with
  | msgCreate m o =>
    show mapMember (handleMessageCreateP1 s rl m o).store id
      = liveFold (mapMember s id) id (handleMessageCreateP1 s rl m o).aTrace
    rcases handleMessageCreateP1_cases s rl m o with ⟨h, _⟩ | h | ⟨rl', h⟩ |
      ⟨s', rl', pre, hpre, hmm, h | h | ⟨succ, h⟩⟩
    · rw [h]; simp [liveFold]
    · rw [h]; simp [liveFold]
    · rw [h]; simp [liveFold]
    · rw [h]
      have hmm' : mapMember s' id = mapMember s id := mapMember_of_messageMap_eq hmm id
      rcases hpre with hp | hp <;> subst hp <;> simp [liveFold, hmm']
    · rw [h]
      have hmm' : mapMember s' id = mapMember s id := mapMember_of_messageMap_eq hmm id
      rcases hpre with hp | hp <;> subst hp <;> simp [liveFold, hmm']
    · rw [h]
      have hmm' : mapMember s' id = mapMember s id := mapMember_of_messageMap_eq hmm id
      rcases hpre with hp | hp <;> subst hp <;>
        cases hb : (m.messageId == id) <;>
        simp [liveFold, mapMember_insertMapping, hmm', hb]
      · exact fun he => absurd he (by simpa using hb)
      · exact Or.inl (by simpa using hb)
      · exact fun he => absurd he (by simpa using hb)
      · exact Or.inl (by simpa using hb)
  | msgUpdate e ok =>
    show mapMember (handleMessageUpdateP1 s e ok).1 id
      = liveFold (mapMember s id) id (handleMessageUpdateP1 s e ok).2
    rcases handleMessageUpdateP1_spec s e ok with ⟨hs, htr⟩
    rw [hs]
    rcases htr with h | h <;> rw [h] <;> simp [liveFold]
  | msgDelete mid ok =>
    show mapMember (handleMessageDeleteP1 s mid ok).1 id
      = liveFold (mapMember s id) id (handleMessageDeleteP1 s mid ok).2
    rcases handleMessageDeleteP1_spec s mid ok with ⟨hnone, heq⟩ | ⟨hsome, heq⟩
    · rw [heq]; simp [liveFold]
    · rw [heq]
      simp only [liveFold, List.foldl]
      rw [mapMember_removeMapping]
      cases hb : (mid == id)
      · have hb' : (id == mid) = false := by
          simp only [beq_eq_false_iff_ne] at hb ⊢
          exact fun he => hb he.symm
        simp [hb, hb']
      · have hb' : (id == mid) = true := by
          simp only [beq_iff_eq] at hb ⊢
          exact hb.symm
        simp [hb, hb']
  | webhookCmd i o =>
    show mapMember (handleWebhookInteractionP1 s i o).1 id
      = liveFold (mapMember s id) id (handleWebhookInteractionP1 s i o).2
    rcases handleWebhookInteractionP1_spec s i o with ⟨hm, htr⟩
    rw [mapMember_of_messageMap_eq hm id]
    rcases htr with h | h | h <;> rw [h] <;> simp [liveFold]
  | relayAdd ch g =>
    show mapMember (relayAddChannel s ch g) id = liveFold (mapMember s id) id []
    rw [mapMember_of_messageMap_eq (relayAddChannel_messageMap s ch g) id]
    rfl
  | relayRemove ch =>
    show mapMember (relayRemoveChannel s ch) id = liveFold (mapMember s id) id []
    rw [mapMember_of_messageMap_eq (rfl : (relayRemoveChannel s ch).messageMap = s.messageMap) id]
    rfl
  | rotation os t =>
    show mapMember (rotateWebhooks s os t) id = liveFold (mapMember s id) id []
    rw [mapMember_of_messageMap_eq (rotateWebhooks_messageMap s os t) id]
    rfl

theorem runEvents_mapInv (evs : List Event) : ∀ (st : Store × RateState) (id : String),
    mapMember (runEvents st evs).1.1 id
      = liveFold (mapMember st.1 id) id (runEvents st evs).2 := by
  induction evs with
  | nil => intro st id; rfl
  | cons e es ih =>
    intro st id
    show mapMember (runEvents (stepEvent st e).1 es).1.1 id
      = liveFold (mapMember st.1 id) id
          ((stepEvent st e).2 ++ (runEvents (stepEvent st e).1 es).2)
    rw [liveFold_append, ← stepEvent_mapInv st e id]
    exact ih (stepEvent st e).1 id

/-- **C1.** A Message Mapping row exists for an original message id iff a
relay send for it reported success and no mirrored delete removed it since:
(1) after a `messageCreate` run, a row for an id is present iff it was
already present or this run's trace reports a successful send for this
message; (2) within any run's trace a mapping insert only ever appears after
a successful send (never before); (3) after a `messageDelete` run the row is
gone unconditionally — even when deleting the relayed copy failed — and no
other id is touched; (4) over any whole execution from an empty store, row
existence coincides with replaying the insert/remove history of the emitted
trace. -/
theorem c1_mapping_iff_send_success :
    (∀ (s : Store) (rl : RateState) (m : InboundMessage) (o : CreateOracle) (id : String),
      mapMember (handleMessageCreateP1 s rl m o).store id
        = (mapMember s id || ((m.messageId == id)
            && hasSendSuccess (handleMessageCreateP1 s rl m o).aTrace))) ∧
    (∀ (s : Store) (rl : RateState) (m : InboundMessage) (o : CreateOracle),
      insertAfterSendOk (handleMessageCreateP1 s rl m o).aTrace = true) ∧
    (∀ (s : Store) (messageId : String) (ok : Bool) (id : String),
      mapMember (handleMessageDeleteP1 s messageId ok).1 id
        = (mapMember s id && !(id == messageId))) ∧
    (∀ (evs : List Event) (id : String),
      mapMember (runEvents (emptyStore, []) evs).1.1 id
        = liveMapped id (runEvents (emptyStore, []) evs).2) := by
  refine ⟨handleMessageCreateP1_mapMember, ?_, ?_, ?_⟩
  · intro s rl m o
    rcases handleMessageCreateP1_cases s rl m o with ⟨h, _⟩ | h | ⟨rl', h⟩ |
      ⟨s', rl', pre, hpre, _, h | h | ⟨succ, h⟩⟩ <;>
      [rw [h]; rw [h]; rw [h]; rcases hpre with hp | hp <;> subst hp <;> rw [h];
       rcases hpre with hp | hp <;> subst hp <;> rw [h];
       rcases hpre with hp | hp <;> subst hp <;> rw [h]] <;>
      simp [insertAfterSendOk, insertAfterSendOkAux]
  · intro s messageId ok id
    rcases handleMessageDeleteP1_spec s messageId ok with ⟨hnone, heq⟩ | ⟨_, heq⟩
    · rw [heq]
      cases hb : (id == messageId)
      · simp [hb]
      · have : id = messageId := by simpa using hb
        subst this
        have hmem : mapMember s id = false := by simp [mapMember, hnone]
        simp [hmem]
    · rw [heq]
      exact mapMember_removeMapping s messageId id
  · intro evs id
    have h := runEvents_mapInv evs (emptyStore, []) id
    have hempty : mapMember emptyStore id = false := rfl
    rw [hempty] at h
    exact h

theorem rotateRow_channelId {r : WebhookRow} {o : RotOutcome} {r' : WebhookRow}
    (h : rotateRow r o = some r') : r'.channelId = r.channelId := by
  unfold rotateRow at h
  split at h
  · exact Option.noConfusion h
  · split at h
    · exact Option.noConfusion h
    · injection h with h'
      rw [← h']

theorem rotatePass_channelId_mem : ∀ (rs : List WebhookRow) (os : List RotOutcome)
    (x : WebhookRow), x ∈ rotatePass rs os →
    x.channelId ∈ rs.map (fun r => r.channelId) := by
  intro rs
  induction rs with
  | nil => intro os x h; simp [rotatePass] at h
  | cons r t ih =>
    intro os x h
    unfold rotatePass at h
    revert h
    cases hr : rotateRow r (os.headD rotFail) with
    | none =>
      intro h
      simp only [List.map_cons, List.mem_cons]
      exact Or.inr (ih os.tail x h)
    | some r' =>
      intro h
      simp only [List.map_cons, List.mem_cons]
      rcases List.mem_cons.mp h with rfl | hmem
      · exact Or.inl (rotateRow_channelId hr)
      · exact Or.inr (ih os.tail x hmem)

/-- **C8 (amended).** During a rotation pass, each row's fate depends only on
its own remote outcomes — one channel's failure never aborts processing of
the remaining rows — but a row is deleted on ANY per-row failure: an
unreachable channel *or* a failure while creating the replacement webhook
both delete the row; only a fully successful per-row rotation keeps it (with
fresh credentials). -/
theorem c8_row_deleted_on_any_failure : ∀ (rows : List WebhookRow)
    (os : List RotOutcome), (rows.map (fun r => r.channelId)).Nodup →
    ∀ (i : Nat) (h : i < rows.length),
      (rotatePass rows os).find?
          (fun r => r.channelId == (rows.get ⟨i, h⟩).channelId)
        = rotateRow (rows.get ⟨i, h⟩) (os.getD i rotFail) := by
  intro rows
  induction rows with
  | nil => intro os _ i h; exact absurd h (by simp)
  | cons r t ih =>
    intro os hnd i h
    rw [List.map_cons] at hnd
    rcases List.nodup_cons.mp hnd with ⟨hnotmem, hndt⟩
    cases i with
    | zero =>
      show (rotatePass (r :: t) os).find? (fun x => x.channelId == r.channelId)
        = rotateRow r (os.getD 0 rotFail)
      have hhead : os.getD 0 rotFail = os.headD rotFail := by cases os <;> rfl
      rw [hhead]
      unfold rotatePass
      cases hr : rotateRow r (os.headD rotFail) with
      | some r' =>
        have hb : (r'.channelId == r.channelId) = true :=
          beq_iff_eq.mpr (rotateRow_channelId hr)
        simp [List.find?, hb]
      | none =>
        apply List.find?_eq_none.mpr
        intro x hx
        have hcid := rotatePass_channelId_mem t os.tail x hx
        simp only [Bool.not_eq_true, beq_eq_false_iff_ne]
        intro hc
        rw [hc] at hcid
        exact hnotmem hcid
    | succ j =>
      have hj : j < t.length := by simpa using h
      show (rotatePass (r :: t) os).find?
          (fun x => x.channelId == (t.get ⟨j, hj⟩).channelId)
        = rotateRow (t.get ⟨j, hj⟩) (os.getD (j + 1) rotFail)
      have htail : os.getD (j + 1) rotFail = os.tail.getD j rotFail := by
        cases os <;> rfl
      rw [htail]
      unfold rotatePass
      cases hr : rotateRow r (os.headD rotFail) with
      | some r' =>
        have hmem : (t.get ⟨j, hj⟩).channelId ∈ t.map (fun r => r.channelId) :=
          List.mem_map_of_mem _ (t.get_mem j hj)
        have hne : (r'.channelId == (t.get ⟨j, hj⟩).channelId) = false := by
          simp only [beq_eq_false_iff_ne]
          rw [rotateRow_channelId hr]
          intro hc
          rw [← hc] at hmem
          exact hnotmem hmem
        rw [List.find?_cons_of_neg _ (by simpa using hne)]
        exact ih os.tail hndt j hj
      | none => exact ih os.tail hndt j hj

/-- **C8 counterexample.** A row whose owning channel IS reachable but whose
replacement `createWebhook` call fails is deleted from the store by the
catch-all handler — refuting "every other per-row failure (for example a
failure while creating the replacement webhook) leaves that channel's row in
place". -/
theorem c8_counterexample :
    (⟨true, none⟩ : RotOutcome).fetchOk = true ∧
    rotatePass [⟨"c", "w", "t"⟩] [⟨true, none⟩] = [] ∧
    (rotateWebhooks ⟨[⟨"c", "w", "t"⟩], [], [], none⟩ [⟨true, none⟩] 9).webhooks
      = [] := by
  decide

/-- Witness for C8 (amended) at concrete inputs. -/
theorem c8_witness :
    (rotatePass [⟨"a", "w1", "t1"⟩, ⟨"b", "w2", "t2"⟩]
        [⟨false, none⟩, ⟨true, some ("nw", "nt")⟩]).find?
      (fun r => r.channelId == "b") = some ⟨"b", "nw", "nt"⟩ := by
  have h := c8_row_deleted_on_any_failure
    [⟨"a", "w1", "t1"⟩, ⟨"b", "w2", "t2"⟩]
    [⟨false, none⟩, ⟨true, some ("nw", "nt")⟩] (by decide) 1 (by decide)
  simpa [rotateRow, rotFail] using h

/-- **C7.** Assuming the external primitives are sound (base64 and UTF-8
round-trip, AES-256-GCM decrypts what it encrypted, a 12-byte iv, a 16-byte
auth tag), decrypting the result of `encryptWebhookToken` yields the original
token byte-for-byte; and any stored value not bearing the `enc:` format tag
is recognized as legacy plaintext — for EVERY choice of cipher primitives
(i.e. without invoking the cipher) — and the caller's resolution logic
returns it unchanged. -/
theorem c7_encrypt_decrypt_roundtrip (β : Type) (p : CryptoPrims β) (iv : List β)
    (token : JStr)
    (hb64 : ∀ bs, p.b64decode (p.b64encode bs) = bs)
    (hstr : ∀ s, p.bytesStr (p.strBytes s) = s)
    (hgcm : ∀ iv' pt, p.gcmDecrypt iv' (p.gcmEncrypt iv' pt).2 (p.gcmEncrypt iv' pt).1
      = some pt)
    (hiv : iv.length = 12)
    (htag : (p.gcmEncrypt iv (p.strBytes token)).2.length = 16) :
    decryptWebhookToken p (encryptWebhookToken p iv token) = .ok token ∧
    (∀ (γ : Type) (q : CryptoPrims γ) (storedToken : JStr),
      startsWithEncTag storedToken = false →
      decryptWebhookToken q storedToken = .plaintextLegacy ∧
      resolveStoredToken q storedToken = some storedToken) := by
  constructor
  · have henc : encryptWebhookToken p iv token
        = ENCRYPTED_TOKEN_PREFIX ++ p.b64encode
            (iv ++ (p.gcmEncrypt iv (p.strBytes token)).2
              ++ (p.gcmEncrypt iv (p.strBytes token)).1) := rfl
    rw [henc]
    have hstarts : startsWithEncTag (ENCRYPTED_TOKEN_PREFIX ++ p.b64encode
        (iv ++ (p.gcmEncrypt iv (p.strBytes token)).2
          ++ (p.gcmEncrypt iv (p.strBytes token)).1)) = true := rfl
    unfold decryptWebhookToken
    rw [hstarts]
    simp only [if_true]
    rw [List.drop_left, hb64]
    have h1 : (iv ++ (p.gcmEncrypt iv (p.strBytes token)).2
        ++ (p.gcmEncrypt iv (p.strBytes token)).1).take 12 = iv := by
      rw [List.append_assoc, ← hiv]
      exact List.take_left iv _
    have h2 : ((iv ++ (p.gcmEncrypt iv (p.strBytes token)).2
        ++ (p.gcmEncrypt iv (p.strBytes token)).1).drop 12).take 16 = (p.gcmEncrypt iv (p.strBytes token)).2 := by
      rw [List.append_assoc, ← hiv, List.drop_left, ← htag]
      exact List.take_left _ _
    have h3 : (iv ++ (p.gcmEncrypt iv (p.strBytes token)).2
        ++ (p.gcmEncrypt iv (p.strBytes token)).1).drop 28 = (p.gcmEncrypt iv (p.strBytes token)).1 := by
      have hlen : (iv ++ (p.gcmEncrypt iv (p.strBytes token)).2).length = 28 := by
        rw [List.length_append, hiv, htag]
      rw [← hlen]
      exact List.drop_left _ _
    rw [h1, h2, h3, hgcm iv (p.strBytes token)]
    simp [hstr]
  · intro γ q storedToken hplain
    constructor
    · unfold decryptWebhookToken
      rw [hplain]
      simp
    · unfold resolveStoredToken decryptWebhookToken
      rw [hplain]
      simp

/-- Trivial concrete instantiation of the external primitives over `Char`
byte buffers, used to witness `c7_encrypt_decrypt_roundtrip`. -/
def idPrims : CryptoPrims Char :=
  ⟨fun bs => bs, fun s => s, fun s => s, fun bs => bs,
   fun _ pt => (pt, List.replicate 16 '#'), fun _ _ ct => some ct⟩

/-- Witness for C7 at a concrete token, iv and primitive set. -/
theorem c7_witness :
    decryptWebhookToken idPrims
        (encryptWebhookToken idPrims (List.replicate 12 'x') "tok".toList)
      = .ok "tok".toList ∧
    decryptWebhookToken idPrims "legacy".toList = .plaintextLegacy ∧
    resolveStoredToken idPrims "legacy".toList = some "legacy".toList := by
  have h := c7_encrypt_decrypt_roundtrip Char idPrims (List.replicate 12 'x')
    "tok".toList (fun _ => rfl) (fun _ => rfl) (fun _ _ => rfl)
    (by simp) (by simp [idPrims])
  exact ⟨h.1, (h.2 Char idPrims "legacy".toList (by decide)).1,
    (h.2 Char idPrims "legacy".toList (by decide)).2⟩
